import Mathlib

/-!
Verification of the digest / scheduler / push subsystem of the reactflux-ai
repository, via a shallow embedding of the relevant JavaScript code.

Modelling conventions:
* A JavaScript string is modelled as a `List ℕ` of its UTF-16 code units
  (`JStr`): JS `.length`, `.substring`, `.charCodeAt` and `.lastIndexOf`
  are all code-unit based.  String literals occurring in the source are all
  in the Basic Multilingual Plane, where code units coincide with code
  points, so `jstr` converts a Lean literal to its code-unit list.
* Token estimates in `truncateByToken` accumulate the floating literals
  `1.6` and `0.3`; the embedding scales by 10 and accumulates the integers
  `16` and `3` exactly.  Likewise `maxLen * 0.3` in `splitText` is embedded
  as the exact rational comparison `10 * pos < 3 * maxLen`.
* Database tables are modelled as lists of row structures; statements that
  the source runs against SQLite become pure functions from store to store.
* Network and clock effects (HTTP fetches, `new Date()`, cron parsing) are
  oracle parameters threaded through an environment structure quantified in
  the theorems.
-/

/-- A JavaScript string: the list of its UTF-16 code units. -/
abbrev JStr := List ℕ

/-- Code-unit list of a Lean string literal (valid for BMP-only literals,
where UTF-16 code units coincide with code points). -/
def jstr (s : String) : JStr := s.data.map Char.toNat

/-! ### digest-service.js: `truncateByToken` (lines 23-46)

```js
function truncateByToken(text, maxTokens) {
  if (!text) return '';
  let accTokens = 0;
  let cutIndex = 0;
  const len = text.length;
  for (let i = 0; i < len; i++) {
    const code = text.charCodeAt(i);
    if (code >= 0x4E00 && code <= 0x9FFF) { accTokens += 1.6; }
    else { accTokens += 0.3; }
    if (accTokens >= maxTokens) {
      cutIndex = i;
      return text.substring(0, cutIndex) + '...';
    }
  }
  return text;
}
```
Token units are scaled by 10 (`budget10 = 10 * maxTokens`) so that the
per-character contributions 1.6 and 0.3 are the exact integers 16 and 3. -/

/-- Scaled token weight of one UTF-16 code unit: 16 tenths for a CJK
Unified Ideographs unit, 3 tenths otherwise. -/
def charTokens10 (code : ℕ) : ℕ :=
  if 0x4E00 ≤ code ∧ code ≤ 0x9FFF then 16 else 3

/-- Scaled token estimate of a string: sum of per-unit weights. -/
def tokenEstimate10 (s : JStr) : ℕ := (s.map charTokens10).sum

/-- The scan loop of `truncateByToken`: returns `some pre` when the
accumulator first reaches the budget (`pre` is the text strictly before the
breaching unit, i.e. `substring(0, cutIndex)`), `none` when the whole text
stays under budget. -/
def truncGo (budget10 : ℕ) : JStr → ℕ → Option JStr
  | [], _ => none
  | c :: cs, acc =>
    let acc' := acc + charTokens10 c
    if budget10 ≤ acc' then some []
    else
      match truncGo budget10 cs acc' with
      | none => none
      | some pre => some (c :: pre)

/-- The `'...'` marker appended on truncation. -/
def ellipsisMarker : JStr := jstr "..."

/-- `truncateByToken` from digest-service.js (budget scaled by 10). -/
def truncateByToken (text : JStr) (budget10 : ℕ) : JStr :=
  if text = [] then []
  else
    match truncGo budget10 text 0 with
    | none => text
    | some pre => pre ++ ellipsisMarker

example : truncateByToken (jstr "abcdef") 12 = jstr "abc" ++ ellipsisMarker := by decide
example : truncateByToken (jstr "ab") 12 = jstr "ab" := by decide
example : truncateByToken (jstr "汉字ab") 32 = jstr "汉" ++ ellipsisMarker := by decide
example : truncateByToken (jstr "x") 0 = ellipsisMarker := by decide

/-! ### Properties of `truncateByToken` (claim C2) -/

theorem truncGo_append (b : ℕ) (xs ys : JStr) (acc : ℕ) :
    truncGo b (xs ++ ys) acc =
      match truncGo b xs acc with
      | some pre => some pre
      | none => (truncGo b ys (acc + tokenEstimate10 xs)).map (fun pre => xs ++ pre) := by
  induction xs generalizing acc with
  | nil =>
    simp only [List.nil_append, truncGo, tokenEstimate10, List.map_nil, List.sum_nil,
      Nat.add_zero]
    cases truncGo b ys acc <;> simp
  | cons c cs ih =>
    simp only [List.cons_append, truncGo]
    by_cases h : b ≤ acc + charTokens10 c
    · simp [h]
    · simp only [if_neg h]
      rw [show cs.append ys = cs ++ ys from rfl, ih]
      have hest : acc + charTokens10 c + tokenEstimate10 cs
          = acc + tokenEstimate10 (c :: cs) := by
        simp [tokenEstimate10]; ring
      rw [hest]
      cases hcs : truncGo b cs (acc + charTokens10 c) <;>
        cases hys : truncGo b ys (acc + tokenEstimate10 (c :: cs)) <;> simp

theorem truncGo_some (b : ℕ) (t : JStr) (acc : ℕ) (pre : JStr)
    (hacc : acc ≤ b) (h : truncGo b t acc = some pre) :
    pre <+: t ∧ acc + tokenEstimate10 pre ≤ b := by
  induction t generalizing acc pre with
  | nil => simp [truncGo] at h
  | cons c cs ih =>
    simp only [truncGo] at h
    by_cases hb : b ≤ acc + charTokens10 c
    · simp only [if_pos hb] at h
      cases h
      refine ⟨List.nil_prefix, ?_⟩
      simpa [tokenEstimate10] using hacc
    · simp only [if_neg hb] at h
      cases hcs : truncGo b cs (acc + charTokens10 c) with
      | none => rw [hcs] at h; exact absurd h (by simp)
      | some pre' =>
        rw [hcs] at h
        simp only [Option.some.injEq] at h
        subst h
        obtain ⟨hpref, hbound⟩ := ih (acc + charTokens10 c) pre' (Nat.le_of_lt (Nat.lt_of_not_le hb)) hcs
        refine ⟨List.cons_prefix_cons.mpr ⟨rfl, hpref⟩, ?_⟩
        have : acc + tokenEstimate10 (c :: pre') = acc + charTokens10 c + tokenEstimate10 pre' := by
          simp [tokenEstimate10]; ring
        omega

theorem truncGo_none_est (b : ℕ) (t : JStr) (acc : ℕ)
    (ht : t ≠ []) (h : truncGo b t acc = none) :
    acc + tokenEstimate10 t < b := by
  induction t generalizing acc with
  | nil => exact absurd rfl ht
  | cons c cs ih =>
    simp only [truncGo] at h
    by_cases hb : b ≤ acc + charTokens10 c
    · simp [if_pos hb] at h
    · simp only [if_neg hb] at h
      cases hcs : truncGo b cs (acc + charTokens10 c) with
      | none =>
        have heq : acc + tokenEstimate10 (c :: cs) = acc + charTokens10 c + tokenEstimate10 cs := by
          simp [tokenEstimate10]; ring
        by_cases hcs0 : cs = []
        · subst hcs0
          have hone : tokenEstimate10 (c :: []) = charTokens10 c := by
            simp [tokenEstimate10]
          omega
        · have := ih (acc + charTokens10 c) hcs0 hcs
          omega
      | some pre' => rw [hcs] at h; exact absurd h (by simp)

/-- C2: for `a` a prefix of `b` and any token budget (in tenths of a token,
making the weights 1.6 / 0.3 exact), `truncateByToken` is monotone in
output length, and the output before the `'...'` marker has a token
estimate that never exceeds the budget. -/
theorem truncateByToken_monotone_and_budget (a b : JStr) (budget10 : ℕ)
    (hab : a <+: b) :
    (truncateByToken a budget10).length ≤ (truncateByToken b budget10).length ∧
    (truncateByToken b budget10 = b ∧ tokenEstimate10 b ≤ budget10 ∨
     ∃ pre, truncateByToken b budget10 = pre ++ ellipsisMarker ∧
       tokenEstimate10 pre ≤ budget10 ∧ pre <+: b) := by
  constructor
  · -- monotonicity in output length
    obtain ⟨s, rfl⟩ := hab
    by_cases ha : a = []
    · subst ha; simp [truncateByToken]
    · have hb : a ++ s ≠ [] := by simp [ha]
      simp only [truncateByToken, if_neg ha, if_neg hb]
      rw [truncGo_append]
      cases hA : truncGo budget10 a 0 with
      | some pre => simp
      | none =>
        cases hS : truncGo budget10 s (0 + tokenEstimate10 a) with
        | none => simp
        | some pre' => simp [ellipsisMarker, jstr]
  · -- budget bound on the part before the ellipsis marker
    by_cases hb : b = []
    · subst hb
      left
      simp [truncateByToken, tokenEstimate10]
    · simp only [truncateByToken, if_neg hb]
      cases hB : truncGo budget10 b 0 with
      | none =>
        left
        refine ⟨by simp, ?_⟩
        have := truncGo_none_est budget10 b 0 hb hB
        omega
      | some pre =>
        right
        obtain ⟨hpref, hbound⟩ := truncGo_some budget10 b 0 pre (Nat.zero_le _) hB
        exact ⟨pre, rfl, by omega, hpref⟩

/-- Witness for C2 at a concrete prefix pair and budget. -/
theorem truncateByToken_monotone_and_budget_witness :
    (truncateByToken (jstr "ab") 12).length ≤ (truncateByToken (jstr "abcdef") 12).length ∧
    (truncateByToken (jstr "abcdef") 12 = jstr "abcdef" ∧ tokenEstimate10 (jstr "abcdef") ≤ 12 ∨
     ∃ pre, truncateByToken (jstr "abcdef") 12 = pre ++ ellipsisMarker ∧
       tokenEstimate10 pre ≤ 12 ∧ pre <+: jstr "abcdef") :=
  truncateByToken_monotone_and_budget (jstr "ab") (jstr "abcdef") 12 ⟨jstr "cdef", by decide⟩

/-! ### push-service.js: `splitText` (lines 15-43)

```js
function splitText(text, maxLen) {
  if (text.length <= maxLen) return [text];
  const chunks = [];
  let remaining = text;
  while (remaining.length > 0) {
    if (remaining.length <= maxLen) { chunks.push(remaining); break; }
    let splitPos = remaining.lastIndexOf('\n\n', maxLen);
    if (splitPos < maxLen * 0.3) {
      splitPos = remaining.lastIndexOf('\n', maxLen);
    }
    if (splitPos < maxLen * 0.3) {
      splitPos = maxLen;
    }
    chunks.push(remaining.substring(0, splitPos));
    remaining = remaining.substring(splitPos).replace(/^\n+/, '');
  }
  return chunks;
}
```
`lastIndexOf(pat, from)` returns the largest start index `k ≤ from` at
which `pat` occurs in full, else `-1`.  The float comparison
`splitPos < maxLen * 0.3` is embedded as the exact rational comparison
`10 * splitPos < 3 * maxLen`.  The loop is embedded with `text.length` as
fuel; fuel-independence for `maxLen ≥ 1` is proved below (for `maxLen = 0`
the JS loop can run forever, which the claims exclude). -/

/-- Does `pat` occur in `s` starting at index `k` (fitting entirely)? -/
def matchAt (s pat : JStr) (k : ℕ) : Bool := (s.drop k).take pat.length == pat

/-- Largest start index `≤ k` where `pat` occurs in `s`, else `-1`. -/
def lastMatchLE (s pat : JStr) : ℕ → Int
  | 0 => if matchAt s pat 0 then 0 else -1
  | k + 1 => if matchAt s pat (k + 1) then ((k : Int) + 1) else lastMatchLE s pat k

/-- JS `s.lastIndexOf(pat, fromIndex)` (code-unit semantics). -/
def jsLastIndexOf (s pat : JStr) (fromIndex : ℕ) : Int := lastMatchLE s pat fromIndex

/-- The split-position computation of one `splitText` loop iteration. -/
def splitPosOf (remaining : JStr) (maxLen : ℕ) : ℕ :=
  let p1 : Int := jsLastIndexOf remaining (jstr "\n\n") maxLen
  let p2 : Int := if 10 * p1 < 3 * (maxLen : Int) then jsLastIndexOf remaining (jstr "\n") maxLen else p1
  if 10 * p2 < 3 * (maxLen : Int) then maxLen else p2.toNat

/-- The `while` loop of `splitText`, with explicit fuel. -/
def splitTextGo (maxLen : ℕ) : ℕ → JStr → List JStr
  | 0, _ => []
  | fuel + 1, remaining =>
    if remaining.length = 0 then []
    else if remaining.length ≤ maxLen then [remaining]
    else
      let pos := splitPosOf remaining maxLen
      remaining.take pos :: splitTextGo maxLen fuel ((remaining.drop pos).dropWhile (· == 10))

/-- `splitText` from push-service.js. -/
def splitText (text : JStr) (maxLen : ℕ) : List JStr :=
  if text.length ≤ maxLen then [text]
  else splitTextGo maxLen text.length text

example : splitText (jstr "ab\n\ncd") 4 = [jstr "ab", jstr "cd"] := by decide
example : splitText (jstr "abcdef") 3 = [jstr "abc", jstr "def"] := by decide
example : splitText (jstr "hello") 10 = [jstr "hello"] := by decide
example : splitText (jstr "aaa\nbb\ncc") 6 = [jstr "aaa\nbb", jstr "cc"] := by decide

/-! ### Properties of `splitText` (claims C3, C10) -/

theorem lastMatchLE_le (s pat : JStr) (k : ℕ) : lastMatchLE s pat k ≤ (k : Int) := by
  induction k with
  | zero => simp only [lastMatchLE]; split <;> omega
  | succ k ih =>
    simp only [lastMatchLE]
    split
    · omega
    · push_cast
      omega

theorem splitPosOf_pos_le (remaining : JStr) (maxLen : ℕ) (hmax : 1 ≤ maxLen) :
    1 ≤ splitPosOf remaining maxLen ∧ splitPosOf remaining maxLen ≤ maxLen := by
  have h1 := lastMatchLE_le remaining (jstr "\n\n") maxLen
  have h2 := lastMatchLE_le remaining (jstr "\n") maxLen
  unfold splitPosOf jsLastIndexOf
  by_cases hg1 : 10 * lastMatchLE remaining (jstr "\n\n") maxLen < 3 * (maxLen : Int)
  · simp only [if_pos hg1]
    by_cases hg2 : 10 * lastMatchLE remaining (jstr "\n") maxLen < 3 * (maxLen : Int)
    · simp only [if_pos hg2]
      omega
    · simp only [if_neg hg2]
      omega
  · simp only [if_neg hg1]
    omega

theorem dropWhile_length_le (p : ℕ → Bool) (l : JStr) :
    (l.dropWhile p).length ≤ l.length := by
  induction l with
  | nil => simp
  | cons c cs ih =>
    simp only [List.dropWhile]
    split
    · simp only [List.length_cons]; omega
    · simp

/-- Fuel-independence of the `splitText` loop: `text.length` fuel is enough
(the formal counterpart of termination — each iteration strictly shortens
the remaining text when `maxLen ≥ 1`). -/
theorem splitTextGo_fuel (maxLen : ℕ) (hmax : 1 ≤ maxLen) :
    ∀ f₁ f₂ r, r.length ≤ f₁ → r.length ≤ f₂ →
      splitTextGo maxLen f₁ r = splitTextGo maxLen f₂ r := by
  intro f₁
  induction f₁ with
  | zero =>
    intro f₂ r hr₁ _
    have : r = [] := List.length_eq_zero.mp (Nat.le_zero.mp hr₁)
    subst this
    cases f₂ <;> simp [splitTextGo]
  | succ f₁ ih =>
    intro f₂ r hr₁ hr₂
    cases f₂ with
    | zero =>
      have : r = [] := List.length_eq_zero.mp (Nat.le_zero.mp hr₂)
      subst this
      simp [splitTextGo]
    | succ f₂ =>
      simp only [splitTextGo]
      by_cases h0 : r.length = 0
      · simp [h0]
      · simp only [if_neg h0]
        by_cases hsm : r.length ≤ maxLen
        · simp [hsm]
        · simp only [if_neg hsm]
          obtain ⟨hp1, hpm⟩ := splitPosOf_pos_le r maxLen hmax
          have hrest : ((r.drop (splitPosOf r maxLen)).dropWhile (· == 10)).length
              ≤ r.length - 1 := by
            have hd := dropWhile_length_le (· == 10) (r.drop (splitPosOf r maxLen))
            rw [List.length_drop] at hd
            omega
          rw [ih f₂ _ (by omega) (by omega)]

/-- C10: for non-empty input and `maxLen ≥ 1`, the splitter terminates
(its loop needs at most `text.length` iterations and the result is
fuel-independent) and returns a non-empty list of non-empty chunks, each
of length at most `maxLen`. -/
theorem splitText_terminates_nonempty_bounded (text : JStr) (maxLen : ℕ)
    (htext : text ≠ []) (hmax : 1 ≤ maxLen) :
    (∀ fuel, text.length ≤ fuel →
      splitTextGo maxLen fuel text = splitTextGo maxLen text.length text) ∧
    splitText text maxLen ≠ [] ∧
    ∀ c ∈ splitText text maxLen, c ≠ [] ∧ c.length ≤ maxLen := by
  refine ⟨fun fuel hf => splitTextGo_fuel maxLen hmax fuel text.length text hf le_rfl, ?_⟩
  have main : ∀ fuel r, r ≠ [] → r.length ≤ fuel →
      splitTextGo maxLen fuel r ≠ [] ∧
      ∀ c ∈ splitTextGo maxLen fuel r, c ≠ [] ∧ c.length ≤ maxLen := by
    intro fuel
    induction fuel with
    | zero =>
      intro r hr hlen
      exact absurd (List.length_eq_zero.mp (Nat.le_zero.mp hlen)) hr
    | succ fuel ih =>
      intro r hr hlen
      simp only [splitTextGo]
      have h0 : ¬ r.length = 0 := by
        simpa using fun h => hr (List.length_eq_zero.mp h)
      simp only [if_neg h0]
      by_cases hsm : r.length ≤ maxLen
      · simp only [if_pos hsm]
        refine ⟨by simp, ?_⟩
        intro c hc
        simp only [List.mem_singleton] at hc
        subst hc
        exact ⟨hr, hsm⟩
      · simp only [if_neg hsm]
        obtain ⟨hp1, hpm⟩ := splitPosOf_pos_le r maxLen hmax
        refine ⟨by simp, ?_⟩
        intro c hc
        simp only [List.mem_cons] at hc
        rcases hc with rfl | hc
        · constructor
          · have : (r.take (splitPosOf r maxLen)).length = splitPosOf r maxLen := by
              rw [List.length_take]
              omega
            intro hnil
            rw [hnil] at this
            simp at this
            omega
          · rw [List.length_take]
            omega
        · set rest := (r.drop (splitPosOf r maxLen)).dropWhile (· == 10) with hrest
          by_cases hre : rest = []
          · rw [hre] at hc
            cases fuel <;> simp [splitTextGo] at hc
          · have hrl : rest.length ≤ fuel := by
              have hd := dropWhile_length_le (· == 10) (r.drop (splitPosOf r maxLen))
              rw [List.length_drop] at hd
              rw [hrest]
              omega
            exact (ih rest hre hrl).2 c hc
  have hlen : ¬ text.length = 0 := by
    simpa using fun h => htext (List.length_eq_zero.mp h)
  unfold splitText
  by_cases hsm : text.length ≤ maxLen
  · simp only [if_pos hsm]
    refine ⟨by simp, ?_⟩
    intro c hc
    simp only [List.mem_singleton] at hc
    subst hc
    exact ⟨htext, hsm⟩
  · simp only [if_neg hsm]
    exact main text.length text htext le_rfl

/-- Witness for C10 at a concrete input. -/
theorem splitText_terminates_nonempty_bounded_witness :
    (∀ fuel, (jstr "ab\n\ncd").length ≤ fuel →
      splitTextGo 4 fuel (jstr "ab\n\ncd") = splitTextGo 4 (jstr "ab\n\ncd").length (jstr "ab\n\ncd")) ∧
    splitText (jstr "ab\n\ncd") 4 ≠ [] ∧
    ∀ c ∈ splitText (jstr "ab\n\ncd") 4, c ≠ [] ∧ c.length ≤ 4 :=
  splitText_terminates_nonempty_bounded (jstr "ab\n\ncd") 4 (by decide) (by decide)

/-- Interleaved concatenation: each chunk followed by its separator. -/
def joinChunks : List JStr → List JStr → JStr
  | c :: cs, s :: ss => c ++ s ++ joinChunks cs ss
  | _, _ => []

theorem mem_takeWhile_eq_ten (l : JStr) (u : ℕ)
    (h : u ∈ l.takeWhile (· == 10)) : u = 10 := by
  induction l with
  | nil => simp [List.takeWhile] at h
  | cons c cs ih =>
    simp only [List.takeWhile] at h
    by_cases hc : c = 10
    · subst hc
      simp only [beq_self_eq_true] at h
      rcases List.mem_cons.mp h with rfl | h'
      · rfl
      · exact ih h'
    · have : (c == 10) = false := beq_false_of_ne hc
      rw [this] at h
      simp at h

theorem splitTextGo_nil (maxLen fuel : ℕ) : splitTextGo maxLen fuel [] = [] := by
  cases fuel <;> simp [splitTextGo]

theorem splitTextGo_join (maxLen : ℕ) (hmax : 1 ≤ maxLen) :
    ∀ fuel r, r ≠ [] → r.length ≤ fuel →
      ∃ seps : List JStr, seps.length = (splitTextGo maxLen fuel r).length ∧
        (∀ s ∈ seps, ∀ u ∈ s, u = 10) ∧
        joinChunks (splitTextGo maxLen fuel r) seps = r := by
  intro fuel
  induction fuel with
  | zero =>
    intro r hr hlen
    exact absurd (List.length_eq_zero.mp (Nat.le_zero.mp hlen)) hr
  | succ fuel ih =>
    intro r hr hlen
    simp only [splitTextGo]
    have h0 : ¬ r.length = 0 := by
      simpa using fun h => hr (List.length_eq_zero.mp h)
    simp only [if_neg h0]
    by_cases hsm : r.length ≤ maxLen
    · simp only [if_pos hsm]
      exact ⟨[[]], by simp, by simp, by simp [joinChunks]⟩
    · simp only [if_neg hsm]
      set pos := splitPosOf r maxLen with hpos
      set dropped := (r.drop pos).takeWhile (· == 10) with hdropped
      set rest := (r.drop pos).dropWhile (· == 10) with hrest
      have hsplit : r.take pos ++ (dropped ++ rest) = r := by
        rw [hdropped, hrest, List.takeWhile_append_dropWhile, List.take_append_drop]
      by_cases hre : rest = []
      · rw [hre]
        rw [splitTextGo_nil]
        refine ⟨[dropped], by simp, ?_, ?_⟩
        · intro s hs u hu
          simp only [List.mem_singleton] at hs
          subst hs
          exact mem_takeWhile_eq_ten _ u hu
        · simp only [joinChunks]
          rw [hre] at hsplit
          simpa using hsplit
      · obtain ⟨hp1, hpm⟩ := splitPosOf_pos_le r maxLen hmax
        have hrl : rest.length ≤ fuel := by
          have hd := dropWhile_length_le (· == 10) (r.drop pos)
          rw [List.length_drop] at hd
          rw [hrest]
          omega
        obtain ⟨seps', hlen', hnl', hjoin'⟩ := ih rest hre hrl
        refine ⟨dropped :: seps', by simp [hlen'], ?_, ?_⟩
        · intro s hs u hu
          rcases List.mem_cons.mp hs with rfl | hs'
          · exact mem_takeWhile_eq_ten _ u hu
          · exact hnl' s hs' u hu
        · simp only [joinChunks]
          rw [hjoin']
          simpa [List.append_assoc] using hsplit

/-- C3 (amended): joining the chunks produced by the splitter, each
followed by a possibly-empty all-newline separator string, reconstructs
the original content; the separators are exactly the newline runs the
splitter drops at the split boundaries.  (Plain concatenation of the
chunks does NOT reconstruct the content exactly — see the
counterexample.) -/
theorem splitText_join_with_newline_seps (text : JStr) (maxLen : ℕ)
    (hmax : 1 ≤ maxLen) :
    ∃ seps : List JStr, seps.length = (splitText text maxLen).length ∧
      (∀ s ∈ seps, ∀ u ∈ s, u = 10) ∧
      joinChunks (splitText text maxLen) seps = text := by
  unfold splitText
  by_cases hsm : text.length ≤ maxLen
  · simp only [if_pos hsm]
    exact ⟨[[]], by simp, by simp, by simp [joinChunks]⟩
  · simp only [if_neg hsm]
    have htext : text ≠ [] := by
      intro h
      subst h
      simp at hsm
    exact splitTextGo_join maxLen hmax text.length text htext le_rfl

/-- C3 as stated is false: concatenating the chunks (the splitter adds no
numbering, so there is nothing to strip) loses the newline run at the
split boundary. -/
theorem splitText_roundtrip_counterexample :
    splitText (jstr "ab\n\ncd") 4 = [jstr "ab", jstr "cd"] ∧
    (splitText (jstr "ab\n\ncd") 4).flatten ≠ jstr "ab\n\ncd" := by
  constructor <;> decide

/-- Witness for the amended C3 at a concrete input. -/
theorem splitText_join_with_newline_seps_witness :
    ∃ seps : List JStr, seps.length = (splitText (jstr "ab\n\ncd") 4).length ∧
      (∀ s ∈ seps, ∀ u ∈ s, u = 10) ∧
      joinChunks (splitText (jstr "ab\n\ncd") 4) seps = jstr "ab\n\ncd" :=
  splitText_join_with_newline_seps (jstr "ab\n\ncd") 4 (by decide)

/-! ### JSON string escaping and JS `String.prototype.replace`

push-service.js escapes substituted values with
`JSON.stringify(value).slice(1, -1)` and substitutes them with
`template.replace(/\{\{title\}\}/g, replacement)`.  The embedding models
both: `jsonEscape` is the body of the JSON string literal produced by a
well-formed `JSON.stringify` (escaping `"`, `\`, controls, and lone
surrogates; passing well-paired surrogates through), and `jsReplaceGlobal`
is a global literal-pattern replace including the ECMAScript
GetSubstitution treatment of `$$`, `$&`, `` $` `` and `$'` in the
replacement string (the patterns used have no capture groups, so `$n` and
`$<` stay literal). -/

/-- Lowercase hex digit. -/
def hexDigit (n : ℕ) : ℕ := if n < 10 then 48 + n else 87 + n

/-- Four lowercase hex digits. -/
def toHex4 (n : ℕ) : JStr :=
  [hexDigit (n / 4096 % 16), hexDigit (n / 256 % 16), hexDigit (n / 16 % 16), hexDigit (n % 16)]

/-- Escape of a single code unit inside a JSON string literal. -/
def escapeUnit (c : ℕ) : JStr :=
  if c = 34 then [92, 34]
  else if c = 92 then [92, 92]
  else if c = 8 then [92, 98]
  else if c = 9 then [92, 116]
  else if c = 10 then [92, 110]
  else if c = 12 then [92, 102]
  else if c = 13 then [92, 114]
  else if c < 32 then 92 :: 117 :: toHex4 c
  else [c]

/-- Body of `JSON.stringify(s)` between the outer quotes, i.e.
`JSON.stringify(s).slice(1, -1)`: escapes specials and lone surrogates,
keeps well-formed surrogate pairs raw. -/
def jsonEscape : JStr → JStr
  | [] => []
  | [c] =>
    if (0xD800 ≤ c ∧ c ≤ 0xDBFF) ∨ (0xDC00 ≤ c ∧ c ≤ 0xDFFF) then 92 :: 117 :: toHex4 c
    else escapeUnit c
  | c :: c2 :: cs =>
    if 0xD800 ≤ c ∧ c ≤ 0xDBFF then
      if 0xDC00 ≤ c2 ∧ c2 ≤ 0xDFFF then c :: c2 :: jsonEscape cs
      else (92 :: 117 :: toHex4 c) ++ jsonEscape (c2 :: cs)
    else if 0xDC00 ≤ c ∧ c ≤ 0xDFFF then (92 :: 117 :: toHex4 c) ++ jsonEscape (c2 :: cs)
    else escapeUnit c ++ jsonEscape (c2 :: cs)

/-- ECMAScript GetSubstitution for a replacement string: expands `$$`,
`$&` (the match), `` $` `` (text before the match), `$'` (text after the
match); everything else, including `$n` and `$<` (the patterns used have
no capture groups), is literal. -/
def expandReplacement (before matched after : JStr) : JStr → JStr
  | 36 :: 36 :: rest => 36 :: expandReplacement before matched after rest
  | 36 :: 38 :: rest => matched ++ expandReplacement before matched after rest
  | 36 :: 96 :: rest => before ++ expandReplacement before matched after rest
  | 36 :: 39 :: rest => after ++ expandReplacement before matched after rest
  | c :: rest => c :: expandReplacement before matched after rest
  | [] => []

/-- Does `s` start with `pat`? -/
def startsWith (s pat : JStr) : Bool := s.take pat.length == pat

/-- The scan of a global literal-pattern replace.  `orig` is the full
subject (for `` $` ``/`$'`), the last argument the not-yet-scanned
suffix; fuel is the suffix length (sufficient for the non-empty patterns
used). -/
def jsReplaceFromGo (orig pat repl : JStr) : ℕ → JStr → JStr
  | 0, _ => []
  | _ + 1, [] => []
  | fuel + 1, c :: rest =>
    if startsWith (c :: rest) pat then
      expandReplacement (orig.take (orig.length - rest.length - 1)) pat
          ((c :: rest).drop pat.length) repl
        ++ jsReplaceFromGo orig pat repl fuel ((c :: rest).drop pat.length)
    else c :: jsReplaceFromGo orig pat repl fuel rest

/-- JS `s.replace(/pat/g, repl)` for a literal pattern `pat` and a string
replacement `repl`. -/
def jsReplaceGlobal (s pat repl : JStr) : JStr :=
  jsReplaceFromGo s pat repl s.length s

example : jsReplaceGlobal (jstr "a__b__c") (jstr "__") (jstr "-") = jstr "a-b-c" := by decide
example : jsReplaceGlobal (jstr "abcXdef") (jstr "X") (jstr "q$&q") = jstr "abcqXqdef" := by decide
example : jsReplaceGlobal (jstr "abcXdef") (jstr "X") (jstr "($')") = jstr "abc(def)def" := by decide
example : jsReplaceGlobal (jstr "abcXdef") (jstr "X") (jstr "$$y") = jstr "abc$ydef" := by decide
example : jsonEscape (jstr "a\"b\\c\nd") = jstr "a\\\"b\\\\c\\nd" := by decide

/-! ### A JSON parser (model of `JSON.parse` / payload validity)

ai-service.js calls `JSON.parse(errorText)` on provider error bodies, and
claim C7 asserts that push request payloads are valid JSON.  The parser
below implements the JSON grammar (RFC 8259) over code-unit strings:
values, objects, arrays, strings with escapes, numbers, `true`/`false`/
`null`, and the four whitespace characters.  Nesting depth is fueled by
the input length (each nesting level consumes at least one unit). -/

/-- A parsed JSON value.  Numbers keep their source token. -/
inductive JVal where
  | null
  | bool (b : Bool)
  | num (tok : JStr)
  | str (s : JStr)
  | arr (elems : List JVal)
  | obj (fields : List (JStr × JVal))

/-- Skip JSON whitespace (space, tab, LF, CR). -/
def skipWs : JStr → JStr
  | c :: cs => if c = 32 ∨ c = 9 ∨ c = 10 ∨ c = 13 then skipWs cs else c :: cs
  | [] => []

/-- ASCII decimal digit? -/
def isDigit (c : ℕ) : Bool := 48 ≤ c ∧ c ≤ 57

/-- Hex digit value. -/
def hexVal (c : ℕ) : Option ℕ :=
  if 48 ≤ c ∧ c ≤ 57 then some (c - 48)
  else if 97 ≤ c ∧ c ≤ 102 then some (c - 87)
  else if 65 ≤ c ∧ c ≤ 70 then some (c - 55)
  else none

/-- Parse the rest of a JSON string literal (after the opening quote):
returns the decoded content and the remainder after the closing quote.
Fuel `≥` input length suffices. -/
def parseStrBody : ℕ → JStr → Option (JStr × JStr)
  | 0, _ => none
  | _ + 1, [] => none
  | fuel + 1, c :: rest =>
    if c = 34 then some ([], rest)
    else if c = 92 then
      match rest with
      | 34 :: r => (parseStrBody fuel r).map (fun p => (34 :: p.1, p.2))
      | 92 :: r => (parseStrBody fuel r).map (fun p => (92 :: p.1, p.2))
      | 47 :: r => (parseStrBody fuel r).map (fun p => (47 :: p.1, p.2))
      | 98 :: r => (parseStrBody fuel r).map (fun p => (8 :: p.1, p.2))
      | 102 :: r => (parseStrBody fuel r).map (fun p => (12 :: p.1, p.2))
      | 110 :: r => (parseStrBody fuel r).map (fun p => (10 :: p.1, p.2))
      | 114 :: r => (parseStrBody fuel r).map (fun p => (13 :: p.1, p.2))
      | 116 :: r => (parseStrBody fuel r).map (fun p => (9 :: p.1, p.2))
      | 117 :: h1 :: h2 :: h3 :: h4 :: r =>
        match hexVal h1, hexVal h2, hexVal h3, hexVal h4 with
        | some a, some b, some c', some d =>
          (parseStrBody fuel r).map (fun p => ((((a * 16 + b) * 16 + c') * 16 + d) :: p.1, p.2))
        | _, _, _, _ => none
      | _ => none
    else if c < 32 then none
    else (parseStrBody fuel rest).map (fun p => (c :: p.1, p.2))

/-- Parse the optional exponent digits (after `e`/`E`): returns remainder. -/
def parseExpTail (r : JStr) : Option JStr :=
  let sgn : ℕ := match r with | 43 :: _ => 1 | 45 :: _ => 1 | _ => 0
  let rr := r.drop sgn
  if rr.takeWhile isDigit = [] then none else some (rr.dropWhile isDigit)

/-- Parse a JSON number at the head of `s`; returns its source token and
the remainder. -/
def parseNum (s : JStr) : Option (JVal × JStr) :=
  let signLen : ℕ := match s with | 45 :: _ => 1 | _ => 0
  let s1 := s.drop signLen
  let ip := s1.takeWhile isDigit
  let r1 := s1.dropWhile isDigit
  if ip = [] then none
  else if 1 < ip.length ∧ ip.headI = 48 then none
  else
    let step2 : Option JStr :=
      match r1 with
      | 46 :: r => if r.takeWhile isDigit = [] then none else some (r.dropWhile isDigit)
      | _ => some r1
    match step2 with
    | none => none
    | some r2 =>
      let step3 : Option JStr :=
        match r2 with
        | 101 :: r => parseExpTail r
        | 69 :: r => parseExpTail r
        | _ => some r2
      match step3 with
      | none => none
      | some rest => some (.num (s.take (s.length - rest.length)), rest)

mutual

/-- Parse one JSON value; fuel bounds nesting depth. -/
def parseVal : ℕ → JStr → Option (JVal × JStr)
  | 0, _ => none
  | fuel + 1, s =>
    match skipWs s with
    | [] => none
    | c :: rest =>
      if c = 110 then
        if rest.take 3 == jstr "ull" then some (.null, rest.drop 3) else none
      else if c = 116 then
        if rest.take 3 == jstr "rue" then some (.bool true, rest.drop 3) else none
      else if c = 102 then
        if rest.take 4 == jstr "alse" then some (.bool false, rest.drop 4) else none
      else if c = 34 then
        (parseStrBody rest.length rest).map (fun p => (.str p.1, p.2))
      else if c = 123 then
        match skipWs rest with
        | 125 :: r2 => some (.obj [], r2)
        | r2 => (parseMembers fuel r2).map (fun p => (.obj p.1, p.2))
      else if c = 91 then
        match skipWs rest with
        | 93 :: r2 => some (.arr [], r2)
        | r2 => (parseElems fuel r2).map (fun p => (.arr p.1, p.2))
      else parseNum (c :: rest)

/-- Parse one or more `"key": value` members followed by `}`. -/
def parseMembers : ℕ → JStr → Option (List (JStr × JVal) × JStr)
  | 0, _ => none
  | fuel + 1, s =>
    match skipWs s with
    | 34 :: rest =>
      match parseStrBody rest.length rest with
      | none => none
      | some (key, r1) =>
        match skipWs r1 with
        | 58 :: r2 =>
          match parseVal fuel r2 with
          | none => none
          | some (v, r3) =>
            match skipWs r3 with
            | 44 :: r4 => (parseMembers fuel r4).map (fun p => ((key, v) :: p.1, p.2))
            | 125 :: r4 => some ([(key, v)], r4)
            | _ => none
        | _ => none
    | _ => none

/-- Parse one or more array elements followed by `]`. -/
def parseElems : ℕ → JStr → Option (List JVal × JStr)
  | 0, _ => none
  | fuel + 1, s =>
    match parseVal fuel s with
    | none => none
    | some (v, r1) =>
      match skipWs r1 with
      | 44 :: r2 => (parseElems fuel r2).map (fun p => (v :: p.1, p.2))
      | 93 :: r2 => some ([v], r2)
      | _ => none

end

/-- `JSON.parse`: a full parse consuming the entire input (modulo
surrounding whitespace); `none` models a thrown `SyntaxError`. -/
def jsonParse (s : JStr) : Option JVal :=
  match parseVal (s.length + 1) s with
  | some (v, rest) => if skipWs rest = [] then some v else none
  | none => none

/-- Is `s` a valid JSON text? -/
def jsonValid (s : JStr) : Bool := (jsonParse s).isSome

example : jsonValid (jstr " \x7b\"a\": [1, 2.5e3, true], \"a\": null\x7d ") = true := by decide
example : jsonValid (jstr "\x7b\"a\": \"b\\\"c\\u00e9\"\x7d") = true := by decide
example : jsonValid (jstr "\x7b") = false := by decide
example : jsonValid (jstr "\x7b\x7d extra") = false := by decide
example : jsonValid (jstr "01") = false := by decide
example : jsonValid (jstr "-0.5") = true := by decide
example : jsonValid (jstr "Internal Server Error") = false := by decide

/-! ### push-service.js: POST-mode body construction (lines 95-110, 193-203)

```js
function autoGenerateBodyTemplate(platform, url) { ... }

for (let i = 0; i < contentChunks.length; i++) {
  const chunkTitle = i === 0 ? (title || '') : '';
  const suffix = contentChunks.length > 1 ? ` (${i + 1}/${contentChunks.length})` : '';
  const chunkSafeTitle = JSON.stringify(chunkTitle).slice(1, -1);
  const chunkSafeContent = JSON.stringify(contentChunks[i]).slice(1, -1);
  const body = bodyTemplate
    .replace(/\{\{title\}\}/g, chunkSafeTitle + suffix)
    .replace(/\{\{digest_content\}\}/g, chunkSafeContent);
  ...
}
```
-/

/-- Decimal string of a natural (JS number-to-string for these values). -/
def natToJStr (n : ℕ) : JStr := jstr (Nat.repr n)

/-- ASCII lowercasing (the URLs matched against are all ASCII). -/
def jsToLower (s : JStr) : JStr := s.map (fun c => if 65 ≤ c ∧ c ≤ 90 then c + 32 else c)

/-- JS `String.prototype.includes` for these arguments. -/
def jsIncludes : JStr → JStr → Bool
  | [], pat => startsWith [] pat
  | c :: rest, pat => startsWith (c :: rest) pat || jsIncludes rest pat

/-- `detectPlatform` from push-service.js. -/
def detectPlatform (url : JStr) : JStr :=
  let lowerUrl := jsToLower url
  if jsIncludes lowerUrl (jstr "discord.com") || jsIncludes lowerUrl (jstr "discordapp.com") then
    jstr "discord"
  else if jsIncludes lowerUrl (jstr "api.telegram.org") then jstr "telegram"
  else if jsIncludes lowerUrl (jstr "qyapi.weixin.qq.com") then jstr "wecom"
  else if jsIncludes lowerUrl (jstr "open.feishu.cn") || jsIncludes lowerUrl (jstr "open.larksuite.com") then
    jstr "feishu"
  else if jsIncludes lowerUrl (jstr "oapi.dingtalk.com") then jstr "dingtalk"
  else if jsIncludes lowerUrl (jstr "slack.com") then jstr "slack"
  else jstr "generic"

/-- The `{{title}}` placeholder. -/
def titlePlaceholder : JStr := jstr "\x7b\x7btitle\x7d\x7d"

/-- The `{{digest_content}}` placeholder. -/
def contentPlaceholder : JStr := jstr "\x7b\x7bdigest_content\x7d\x7d"

/-- `autoGenerateBodyTemplate` from push-service.js.  The JS template
literals contain the two-character sequence backslash-`n` (written `\\n`
in the JS source), which becomes a newline after JSON parsing. -/
def autoGenerateBodyTemplate (platform : JStr) : JStr :=
  if platform = jstr "discord" then
    jstr "\x7b\"content\": \"\x7b\x7btitle\x7d\x7d\\\\n\\\\n\x7b\x7bdigest_content\x7d\x7d\"\x7d"
  else if platform = jstr "telegram" then
    jstr "\x7b\"chat_id\": \"YOUR_CHAT_ID\", \"text\": \"\x7b\x7btitle\x7d\x7d\\\\n\\\\n\x7b\x7bdigest_content\x7d\x7d\", \"parse_mode\": \"Markdown\"\x7d"
  else if platform = jstr "wecom" then
    jstr "\x7b\"msgtype\": \"markdown\", \"markdown\": \x7b\"content\": \"\x7b\x7btitle\x7d\x7d\\\\n\\\\n\x7b\x7bdigest_content\x7d\x7d\"\x7d\x7d"
  else if platform = jstr "feishu" then
    jstr "\x7b\"msg_type\": \"interactive\", \"card\": \x7b\"elements\": [\x7b\"tag\": \"markdown\", \"content\": \"\x7b\x7bdigest_content\x7d\x7d\"\x7d], \"header\": \x7b\"title\": \x7b\"tag\": \"plain_text\", \"content\": \"\x7b\x7btitle\x7d\x7d\"\x7d\x7d\x7d\x7d"
  else if platform = jstr "dingtalk" then
    jstr "\x7b\"msgtype\": \"markdown\", \"markdown\": \x7b\"title\": \"\x7b\x7btitle\x7d\x7d\", \"text\": \"\x7b\x7btitle\x7d\x7d\\\\n\\\\n\x7b\x7bdigest_content\x7d\x7d\"\x7d\x7d"
  else if platform = jstr "slack" then
    jstr "\x7b\"text\": \"\x7b\x7btitle\x7d\x7d\\\\n\\\\n\x7b\x7bdigest_content\x7d\x7d\"\x7d"
  else
    jstr "\x7b\"title\": \"\x7b\x7btitle\x7d\x7d\", \"content\": \"\x7b\x7bdigest_content\x7d\x7d\"\x7d"

/-- The value substituted for `{{title}}` in chunk `i` of `n`
(push-service.js lines 194-198 and the first replacement argument of
line 201-202): `chunkSafeTitle + suffix`. -/
def titleSlotValue (title : JStr) (i n : ℕ) : JStr :=
  let chunkTitle := if i = 0 then title else []
  let suffix :=
    if 1 < n then jstr " (" ++ natToJStr (i + 1) ++ jstr "/" ++ natToJStr n ++ jstr ")" else []
  jsonEscape chunkTitle ++ suffix

/-- The POST body built for chunk `i` of `n` (push-service.js lines
193-203). -/
def buildChunkBody (bodyTemplate title chunkContent : JStr) (i n : ℕ) : JStr :=
  jsReplaceGlobal
    (jsReplaceGlobal bodyTemplate titlePlaceholder (titleSlotValue title i n))
    contentPlaceholder (jsonEscape chunkContent)

example :
    buildChunkBody (autoGenerateBodyTemplate (jstr "generic")) (jstr "Hi") (jstr "Yo") 0 1
      = jstr "\x7b\"title\": \"Hi\", \"content\": \"Yo\"\x7d" := by decide
example :
    jsonValid (buildChunkBody (autoGenerateBodyTemplate (jstr "discord"))
      (jstr "A \"quoted\" title\nwith\\specials") (jstr "body $ text") 0 1) = true := by decide

/-! ### Claims C7 and C8 -/

/-- C7 fails on the code: the substituted values ARE JSON-escaped
(`JSON.stringify(...).slice(1, -1)`), but they are substituted with
`String.prototype.replace`, whose replacement-string `$`-patterns are
expanded; a title containing `$'` splices the raw template tail —
including an unescaped quote — into the payload, which is then not valid
JSON.  (A benign title yields a valid payload, so escaping itself is not
at fault.) -/
theorem pushBody_dollar_title_invalid_json :
    jsonValid (buildChunkBody (autoGenerateBodyTemplate (jstr "generic"))
      (jstr "safe") (jstr "Hello") 0 1) = true ∧
    jsonValid (buildChunkBody (autoGenerateBodyTemplate (jstr "generic"))
      (jstr "x$'y") (jstr "Hello") 0 1) = false ∧
    buildChunkBody (autoGenerateBodyTemplate (jstr "generic"))
      (jstr "x$'y") (jstr "Hello") 0 1
      = jstr "\x7b\"title\": \"x\", \"content\": \"Hello\"\x7dy\", \"content\": \"Hello\"\x7d" := by
  refine ⟨by decide, by decide, by decide⟩

/-- C8: when POST content is split into `n > 1` chunks, the title slot of
every chunk beyond the first holds only the `' (i/N)'` numbering suffix
(it is independent of the given title), while the first chunk's title
slot is the escaped title followed by `' (1/N)'`. -/
theorem pushChunkTitle_numbering (title : JStr) (i n : ℕ)
    (hn : 1 < n) (hi : 1 ≤ i) :
    titleSlotValue title i n
        = jstr " (" ++ natToJStr (i + 1) ++ jstr "/" ++ natToJStr n ++ jstr ")" ∧
    (∀ t : JStr, titleSlotValue t i n = titleSlotValue title i n) ∧
    titleSlotValue title 0 n
        = jsonEscape title ++ (jstr " (1/" ++ natToJStr n ++ jstr ")") := by
  have hi0 : i ≠ 0 := by omega
  refine ⟨?_, ?_, ?_⟩
  · simp only [titleSlotValue, if_neg hi0, if_pos hn]
    simp [jsonEscape]
  · intro t
    simp only [titleSlotValue, if_neg hi0]
  · have h1 : jstr " (" ++ natToJStr (0 + 1) ++ jstr "/" = jstr " (1/" := by decide
    simp only [titleSlotValue, if_pos hn, reduceIte]
    rw [← h1]

/-- Witness for C8 at a concrete chunk index and count. -/
theorem pushChunkTitle_numbering_witness :
    titleSlotValue (jstr "Report") 1 3
        = jstr " (" ++ natToJStr (1 + 1) ++ jstr "/" ++ natToJStr 3 ++ jstr ")" ∧
    (∀ t : JStr, titleSlotValue t 1 3 = titleSlotValue (jstr "Report") 1 3) ∧
    titleSlotValue (jstr "Report") 0 3
        = jsonEscape (jstr "Report") ++ (jstr " (1/" ++ natToJStr 3 ++ jstr ")") :=
  pushChunkTitle_numbering (jstr "Report") 1 3 (by decide) (by decide)

/-! ### ai-service.js: non-2xx error message extraction

`proxyChatRequest` (lines 207-218):
```js
const errorText = await response.text();
let errorMessage = `HTTP ${response.status}`;
try {
  const errorJson = JSON.parse(errorText);
  errorMessage = errorJson.error?.message || errorJson.message || errorMessage;
} catch {
  // Use text error if JSON parsing fails
}
throw new Error(errorMessage);
```
`testConnection` (lines 155-170) is identical except that its catch block
actually performs the text fallback: `errorMessage = errorText || errorMessage`.
-/

/-- JS object field lookup: later duplicate keys overwrite earlier ones. -/
def lastField : List (JStr × JVal) → JStr → Option JVal
  | [], _ => none
  | (k, v) :: rest, key =>
    match lastField rest key with
    | some v' => some v'
    | none => if k == key then some v else none

/-- JS property read on a non-null base: `undefined` (`none`) for a
missing field or a non-object base. -/
def jprop : JVal → JStr → Option JVal
  | .obj fields, key => lastField fields key
  | _, _ => none

/-- Is a JSON number token mathematically zero (falsy in JS)? -/
def numIsZero (tok : JStr) : Bool :=
  (tok.takeWhile (fun c => ¬(c = 101 ∨ c = 69))).all (fun c => c = 48 ∨ c = 46 ∨ c = 45)

/-- JS truthiness of a parsed JSON value. -/
def jvalTruthy : JVal → Bool
  | .null => false
  | .bool b => b
  | .str s => ¬(s = [])
  | .num tok => ¬ numIsZero tok
  | .arr _ => true
  | .obj _ => true

mutual

/-- `String(v)` as used by `new Error(v)`.  (For arrays, JS joins the
elements with commas; `null`/`undefined` elements would stringify to the
empty string inside an array — that sub-case, never exercised here, is
approximated by the outer forms.) -/
def jvalToMessage : JVal → JStr
  | .str s => s
  | .bool true => jstr "true"
  | .bool false => jstr "false"
  | .null => jstr "null"
  | .num tok => tok
  | .obj _ => jstr "[object Object]"
  | .arr xs => joinMessages xs

/-- Comma-joined stringification of array elements. -/
def joinMessages : List JVal → JStr
  | [] => []
  | [x] => jvalToMessage x
  | x :: y :: xs => jvalToMessage x ++ (44 :: joinMessages (y :: xs))

end

/-- `errorJson.error?.message || errorJson.message` evaluated on the
parsed body: `.error ()` models the TypeError thrown when `errorJson` is
`null` (reading `.error` of null); `.ok none` means no truthy candidate,
so the `HTTP <status>` default stays. -/
def extractJsonErrMsg (j : JVal) : Except Unit (Option JStr) :=
  match j with
  | .null => .error ()
  | _ =>
    let pick : Option JVal → Option JVal :=
      fun o => o.bind (fun v => if jvalTruthy v then some v else none)
    let v1 : Option JVal := (jprop j (jstr "error")).bind (fun e =>
      match e with
      | .null => none
      | e => jprop e (jstr "message"))
    match pick v1 with
    | some v => .ok (some (jvalToMessage v))
    | none =>
      match pick (jprop j (jstr "message")) with
      | some v => .ok (some (jvalToMessage v))
      | none => .ok none

/-- Message of the error surfaced by `proxyChatRequest` for a non-2xx
response with status `status` and body `errorText`: the catch block after
`JSON.parse` is empty, so an unparseable body falls through to
`HTTP <status>` (the raw text is never used, despite the comment). -/
def proxyChatErrorMessage (status : ℕ) (errorText : JStr) : JStr :=
  let de := jstr "HTTP " ++ natToJStr status
  match jsonParse errorText with
  | none => de
  | some j =>
    match extractJsonErrMsg j with
    | .error () => de
    | .ok none => de
    | .ok (some m) => m

/-- Message reported by `testConnection` for a non-2xx response: same
extraction, but its catch block falls back to the raw body text
(`errorText || errorMessage`). -/
def testConnectionErrorMessage (status : ℕ) (errorText : JStr) : JStr :=
  let de := jstr "HTTP " ++ natToJStr status
  match jsonParse errorText with
  | none => if errorText = [] then de else errorText
  | some j =>
    match extractJsonErrMsg j with
    | .error () => if errorText = [] then de else errorText
    | .ok none => de
    | .ok (some m) => m

/-- C4 fails on the code in `proxyChatRequest`: for a non-JSON body the
surfaced message is `HTTP <status>`, not the raw response text the claim
(and the function's own inline comment) describe; `testConnection` does
implement the claimed fallback chain, and both extract the JSON error
message when the body parses. -/
theorem proxyChatErrorMessage_ignores_raw_text :
    proxyChatErrorMessage 500 (jstr "Internal Server Error") = jstr "HTTP 500" ∧
    testConnectionErrorMessage 500 (jstr "Internal Server Error")
      = jstr "Internal Server Error" ∧
    proxyChatErrorMessage 429 (jstr "\x7b\"error\": \x7b\"message\": \"Rate limited\"\x7d\x7d")
      = jstr "Rate limited" ∧
    testConnectionErrorMessage 429 (jstr "\x7b\"error\": \x7b\"message\": \"Rate limited\"\x7d\x7d")
      = jstr "Rate limited" := by
  refine ⟨by decide, by decide, by decide, by decide⟩

/-! ### digest-service.js: content preparation (lines 200-244)

```js
async function prepareArticlesForDigest(articles) {
  const BATCH_SIZE = 20; const results = [];
  const maxTokens = 1000; const SAFE_CONTENT_LENGTH = 50000;
  for (let i = 0; i < articles.length; i += BATCH_SIZE) {
    const batch = articles.slice(i, i + BATCH_SIZE);
    const processedBatch = batch.map((article, batchIndex) => {
      let content = article.content || '';
      if (content.length > SAFE_CONTENT_LENGTH) content = content.substring(0, SAFE_CONTENT_LENGTH);
      content = content.replace(/<[^>]+>/g, ' ').replace(/\s+/g, ' ').trim();
      return { index: i + batchIndex + 1, title: article.title,
               feedTitle: article.feed?.title || '',
               feedId: article.feed_id ?? article.feed?.id ?? null,
               categoryName: article.feed?.category?.title || '',
               publishedAt: article.published_at,
               summary: truncateByToken(content, maxTokens), url: article.url };
    });
    results.push(...processedBatch);
    if (i + BATCH_SIZE < articles.length) await new Promise(r => setTimeout(r, 0));
  }
  return results;
}
```
The BATCH_SIZE loop only yields the event loop between batches; its value
is the plain index-decorated map below. -/

/-- JS whitespace (`\s`, common subset: tab, LF, VT, FF, CR, space, NBSP). -/
def isJsWs (c : ℕ) : Bool := c = 9 ∨ c = 10 ∨ c = 11 ∨ c = 12 ∨ c = 13 ∨ c = 32 ∨ c = 160

/-- JS `String.prototype.trim`. -/
def jsTrim (s : JStr) : JStr :=
  ((s.dropWhile isJsWs).reverse.dropWhile isJsWs).reverse

/-- JS `String.prototype.trimEnd`. -/
def jsTrimEnd (s : JStr) : JStr := (s.reverse.dropWhile isJsWs).reverse

/-- `replace(/<[^>]+>/g, ' ')`: each maximal `<`…`>` group with a
non-empty interior becomes one space (fuel `≥` length suffices). -/
def stripTagsGo : ℕ → JStr → JStr
  | 0, _ => []
  | _ + 1, [] => []
  | fuel + 1, 60 :: rest =>
    match rest with
    | 62 :: _ => 60 :: stripTagsGo fuel rest
    | _ =>
      match rest.dropWhile (· ≠ 62) with
      | 62 :: r => 32 :: stripTagsGo fuel r
      | _ => 60 :: stripTagsGo fuel rest
  | fuel + 1, c :: rest => c :: stripTagsGo fuel rest

/-- `replace(/<[^>]+>/g, ' ')`. -/
def stripTags (s : JStr) : JStr := stripTagsGo s.length s

/-- `replace(/\s+/g, ' ')`: collapse every whitespace run to one space. -/
def collapseWs : JStr → JStr
  | [] => []
  | [c] => if isJsWs c then [32] else [c]
  | c :: c2 :: rest =>
    if isJsWs c ∧ isJsWs c2 then collapseWs (c2 :: rest)
    else (if isJsWs c then 32 else c) :: collapseWs (c2 :: rest)

example : stripTags (jstr "a<b>c<d") = jstr "a c<d" := by decide
example : stripTags (jstr "x<>y") = jstr "x<>y" := by decide
example : jsTrim (collapseWs (jstr "  a \n\n b\t")) = jstr "a b" := by decide

/-- One article entry as returned by the Miniflux client (the `feed?.…`
optional chains are flattened into `Option` fields). -/
structure RawEntry where
  title : JStr
  content : Option JStr
  feed_id : Option Int
  feedObjId : Option Int
  feedTitle : Option JStr
  feedCategoryTitle : Option JStr
  published_at : JStr
  url : JStr

/-- A prepared article. -/
structure PreparedArticle where
  index : ℕ
  title : JStr
  feedTitle : JStr
  feedId : Option Int
  categoryName : JStr
  publishedAt : JStr
  summary : JStr
  url : JStr

/-- Preparation of one article at (0-based) position `i`. -/
def prepareArticle (i : ℕ) (a : RawEntry) : PreparedArticle :=
  let content0 := a.content.getD []
  let content1 := if 50000 < content0.length then content0.take 50000 else content0
  let content2 := jsTrim (collapseWs (stripTags content1))
  { index := i + 1,
    title := a.title,
    feedTitle := a.feedTitle.getD [],
    feedId := match a.feed_id with | some v => some v | none => a.feedObjId,
    categoryName := a.feedCategoryTitle.getD [],
    publishedAt := a.published_at,
    summary := truncateByToken content2 10000,
    url := a.url }

/-- `prepareArticlesForDigest` (the batching only yields the event loop;
`maxTokens = 1000` tokens is `10000` in tenths). -/
def prepareArticlesForDigest (articles : List RawEntry) : List PreparedArticle :=
  (List.range articles.length).zip articles |>.map (fun p => prepareArticle p.1 p.2)

/-! ### digest-service.js: `buildDigestPrompt` (lines 246-304) -/

/-- The per-article block of the prompt's article list. -/
def articleBlock (a : PreparedArticle) : JStr :=
  jstr "### " ++ natToJStr a.index ++ jstr ". " ++ a.title ++ jstr "\n" ++
  jstr "- Source: " ++ a.feedTitle ++ jstr "\n" ++
  (if a.categoryName ≠ [] then jstr "- Category: " ++ a.categoryName ++ jstr "\n" else []) ++
  jstr "- Date: " ++ a.publishedAt ++ jstr "\n" ++
  (if a.url ≠ [] then jstr "- Link: " ++ a.url ++ jstr "\n" else []) ++
  jstr "- Summary: " ++ a.summary ++ jstr "\n"

/-- The closed-world `contentBlock` wrapped around the article list. -/
def contentBlock (count : ℕ) (articlesList : JStr) : JStr :=
  jstr "## CRITICAL: Use ONLY the information from the article list below. Do not add any facts or details from outside these articles.\n\n## Article List (Total " ++
  natToJStr count ++ jstr " articles):\n\n" ++ articlesList

/-- The inlined default prompt (lines 287-303). -/
def defaultDigestPrompt (scope targetLang : JStr) (count : ℕ) (articlesList : JStr) : JStr :=
  jstr "You are a professional news editor. Generate a concise digest based ONLY on the following list of recent " ++
  scope ++
  jstr " articles.\n\n## CRITICAL CONSTRAINT:\n- Use ONLY information from the article list below. Do not add any facts, events, or details from your training data or external knowledge.\n- Every claim in your digest must be traceable to one of the listed articles. If something is not in the list, do not include it.\n\n## Output Requirements:\n1. Output in " ++
  targetLang ++
  jstr "\n2. Start with a 2-3 sentence overview of the key content from these articles only\n3. Categorize by topic or importance, listing key information in concise bullet points\n4. If multiple articles relate to the same topic, combine them\n5. Keep the format concise and compact, using Markdown\n6. Output the content directly, no opening remarks like \"Here is the digest\"\n\n## Article List (Total " ++
  natToJStr count ++ jstr " articles):\n\n" ++ articlesList

/-- Legacy single-brace placeholder migration (lines 253-263). -/
def migrateCustomPrompt (p : JStr) : JStr :=
  let p1 :=
    if jsIncludes p (jstr "\x7bcontent\x7d") ∧ ¬ jsIncludes p (jstr "\x7b\x7bcontent\x7d\x7d") then
      jsReplaceGlobal p (jstr "\x7bcontent\x7d") (jstr "\x7b\x7bcontent\x7d\x7d")
    else p
  let p2 :=
    if jsIncludes p1 (jstr "\x7btargetLang\x7d") ∧ ¬ jsIncludes p1 (jstr "\x7b\x7btargetLang\x7d\x7d") then
      jsReplaceGlobal p1 (jstr "\x7btargetLang\x7d") (jstr "\x7b\x7btargetLang\x7d\x7d")
    else p1
  if ¬ jsIncludes p2 (jstr "\x7b\x7bcontent\x7d\x7d") then
    jsTrim p2 ++ jstr "\n\n\x7b\x7bcontent\x7d\x7d"
  else p2

/-- `buildDigestPrompt` from digest-service.js. -/
def buildDigestPrompt (articles : List PreparedArticle)
    (targetLang scope : JStr) (customPrompt : Option JStr) : JStr :=
  let articlesList := List.intercalate (jstr "\n") (articles.map articleBlock)
  match customPrompt with
  | some p =>
    if jsTrim p ≠ [] then
      let p := migrateCustomPrompt p
      jsReplaceGlobal
        (jsReplaceGlobal p (jstr "\x7b\x7btargetLang\x7d\x7d") targetLang)
        (jstr "\x7b\x7bcontent\x7d\x7d") (contentBlock articles.length articlesList)
    else defaultDigestPrompt scope targetLang articles.length articlesList
  | none => defaultDigestPrompt scope targetLang articles.length articlesList

/-! ### digest-service.js: `DigestService.generate` (lines 480-648) and
`saveDigest` (lines 417-439)

The Miniflux lookups (`getFeed`, `getCategories`), the article fetch
(`getRecentArticles`), the AI call (`callAIForDigest`, whose outcome is a
function of the composed prompt: `.error` models a throw — config error,
timeout, HTTP error or empty response — and `.ok` the trimmed non-empty
content) and the two clock reads (`timeStr`, `toISOString`) are oracle
fields of `GenEnv`.  The digests table is a list of rows threaded through
`generate`; `saveDigest` is the only operation appending to it. -/

/-- The digests table row inserted by `saveDigest`. -/
structure DigestRow where
  id : ℕ
  title : JStr
  content : JStr
  scope : JStr
  scope_id : Option Int
  scope_name : JStr
  article_count : ℕ
  hours : ℕ
  target_lang : JStr
  is_read : ℕ
deriving DecidableEq

/-- The digests table. -/
abbrev DigestStore := List DigestRow

/-- The digest object `generate` returns (`targetLang := none` on the
zero-article placeholder, which spreads no such field). -/
structure DigestOut where
  id : Option ℕ
  title : JStr
  content : JStr
  articleCount : ℕ
  scope : JStr
  scopeId : Option Int
  scopeName : JStr
  hours : ℕ
  targetLang : Option JStr
  generatedAt : JStr

/-- `options` of `generate` with its destructuring defaults. -/
structure GenOptions where
  scope : JStr := jstr "all"
  feedId : Option Int := none
  groupId : Option Int := none
  hours : ℕ := 24
  targetLang : JStr := jstr "Simplified Chinese"
  customPrompt : Option JStr := none
  unreadOnly : Bool := true
  timezone : JStr := []

/-- Oracles for the effects of `generate`. -/
structure GenEnv where
  feedTitle : Int → Option JStr := fun _ => none
  categoryTitle : Int → Option JStr := fun _ => none
  articles : List RawEntry := []
  aiContent : JStr → Except JStr JStr := fun _ => Except.error []
  timeStr : JStr := []
  nowIso : JStr := []

/-- `digestData` argument of `saveDigest`. -/
structure DigestData where
  scope : JStr
  scopeId : Option Int
  scopeName : JStr
  title : JStr
  content : JStr
  articleCount : ℕ
  hours : ℕ
  targetLang : JStr

/-- `lastInsertRowid` of the next insert. -/
def nextRowId (store : DigestStore) : ℕ := (store.map (·.id)).foldr max 0 + 1

/-- `saveDigest`: INSERT with the source's `||` defaults (note `hours || 24`
turns a stored window of 0 into 24, and `scopeId || null` nulls an id of
0), returning `{id, ...digestData, generatedAt}`. -/
def saveDigest (store : DigestStore) (nowIso : JStr) (d : DigestData) :
    DigestOut × DigestStore :=
  let id := nextRowId store
  let row : DigestRow := {
    id := id, title := d.title, content := d.content,
    scope := if d.scope = [] then jstr "all" else d.scope,
    scope_id := match d.scopeId with | some i => if i = 0 then none else some i | none => none,
    scope_name := d.scopeName,
    article_count := d.articleCount,
    hours := if d.hours = 0 then 24 else d.hours,
    target_lang := if d.targetLang = [] then jstr "zh-CN" else d.targetLang,
    is_read := 0 }
  ({ id := some id, title := d.title, content := d.content, articleCount := d.articleCount,
     scope := d.scope, scopeId := d.scopeId, scopeName := d.scopeName, hours := d.hours,
     targetLang := some d.targetLang, generatedAt := nowIso }, store ++ [row])

/-- JS truthiness of an optional numeric id. -/
def optTruthyInt : Option Int → Bool
  | some i => decide (i ≠ 0)
  | none => false

/-- Scope display-name resolution (lines 497-520): a lookup failure or a
falsy title falls back to a generic label. -/
def resolveScopeName (env : GenEnv) (opts : GenOptions) (isEn : Bool) : JStr × Option Int :=
  if opts.scope = jstr "feed" ∧ optTruthyInt opts.feedId then
    let fid := opts.feedId.getD 0
    let fb := if isEn then jstr "Feed" else jstr "订阅源"
    ((match env.feedTitle fid with
      | some t => if t = [] then fb else t
      | none => fb), some fid)
  else if opts.scope = jstr "group" ∧ optTruthyInt opts.groupId then
    let gid := opts.groupId.getD 0
    let fb := if isEn then jstr "Group" else jstr "分组"
    ((match env.categoryTitle gid with
      | some t => if t = [] then fb else t
      | none => fb), some gid)
  else ((if isEn then jstr "All Subscriptions" else jstr "全部订阅"), none)

/-- The zero-article placeholder digest (lines 526-548). -/
def placeholderDigest (isEn unreadOnly : Bool) (hours : ℕ) (scope scopeName : JStr)
    (scopeId : Option Int) (nowIso : JStr) : DigestOut :=
  let timeDesc :=
    if 0 < hours then
      (if isEn then jstr "in the past " ++ natToJStr hours ++ jstr " hours"
       else jstr "在过去 " ++ natToJStr hours ++ jstr " 小时内")
    else (if isEn then jstr "in scope" else jstr "范围内")
  let noArticlesMsg :=
    if isEn then
      jstr "No " ++ (if unreadOnly then jstr "unread " else []) ++ jstr "articles " ++
        timeDesc ++ jstr "."
    else
      timeDesc ++ jstr "没有" ++ (if unreadOnly then jstr "未读" else []) ++ jstr "文章。"
  { id := none,
    title := scopeName ++ jstr " - " ++ (if isEn then jstr "No Articles" else jstr "无文章"),
    content := noArticlesMsg,
    articleCount := 0,
    scope := scope,
    scopeId := scopeId,
    scopeName := scopeName,
    hours := hours,
    targetLang := none,
    generatedAt := nowIso }

/-- Signed decimal string. -/
def intToJStr (n : Int) : JStr := if n < 0 then 45 :: natToJStr n.natAbs else natToJStr n.toNat

/-- The deduplicated feed map (lines 564-570): keyed by feed id when
present, else by feed title; first occurrence wins; an empty title with no
id is skipped. -/
def feedMapEntries (isEn : Bool) (articles : List PreparedArticle) :
    List ((Int ⊕ JStr) × (JStr × Option Int)) :=
  articles.foldl (fun acc a =>
    let key : Option (Int ⊕ JStr) :=
      match a.feedId with
      | some i => some (Sum.inl i)
      | none => if a.feedTitle = [] then none else some (Sum.inr a.feedTitle)
    match key with
    | none => acc
    | some k =>
      if acc.any (fun e => decide (e.1 = k)) then acc
      else acc ++ [(k,
        ((if a.feedTitle = [] then (if isEn then jstr "Feed" else jstr "订阅源") else a.feedTitle),
         a.feedId))]) []

/-- The "feed sources" appendix (lines 572-585); `[]` when there is none. -/
def feedSourcesAppendix (isEn : Bool) (articles : List PreparedArticle) : JStr :=
  let feedList := (feedMapEntries isEn articles).map Prod.snd
  if feedList.length = 0 then []
  else
    let sectionTitle := if isEn then jstr "## Feed Sources" else jstr "## 订阅源清单"
    let lines := List.intercalate (jstr "\n")
      ((feedList.filter (fun f => f.2.isSome)).map (fun f =>
        jstr "- [" ++ jsReplaceGlobal f.1 (jstr "]") (jstr "\\]") ++ jstr "](#/feed/" ++
          (match f.2 with | some i => intToJStr i | none => []) ++ jstr ")"))
    let fallbackLines := List.intercalate (jstr "\n")
      ((feedList.filter (fun f => f.2.isNone)).map (fun f => jstr "- " ++ f.1))
    if lines ≠ [] then
      (if fallbackLines ≠ [] then sectionTitle ++ jstr "\n\n" ++ lines ++ jstr "\n" ++ fallbackLines
       else sectionTitle ++ jstr "\n\n" ++ lines)
    else
      (if fallbackLines ≠ [] then sectionTitle ++ jstr "\n\n" ++ fallbackLines else [])

/-- `DigestService.generate`: returns the result and the digests table
after the call (`Except.error` models a thrown error, as produced by
`callAIForDigest`). -/
def generate (env : GenEnv) (opts : GenOptions) (store : DigestStore) :
    Except JStr DigestOut × DigestStore :=
  let isEn := !opts.targetLang.isEmpty &&
    (jsIncludes (jsToLower opts.targetLang) (jstr "english") ||
     jsIncludes (jsToLower opts.targetLang) (jstr "en"))
  let sn := resolveScopeName env opts isEn
  let scopeName := sn.1
  let scopeId := sn.2
  if env.articles.length = 0 then
    (Except.ok (placeholderDigest isEn opts.unreadOnly opts.hours opts.scope scopeName scopeId env.nowIso),
     store)
  else
    let preparedArticles := prepareArticlesForDigest env.articles
    let prompt := buildDigestPrompt preparedArticles opts.targetLang scopeName opts.customPrompt
    match env.aiContent prompt with
    | .error e => (.error e, store)
    | .ok content0 =>
      let appendix := feedSourcesAppendix isEn preparedArticles
      let digestContent :=
        if appendix ≠ [] then jsTrim (jsTrimEnd content0 ++ jstr "\n\n---\n\n" ++ appendix)
        else content0
      let h :=
        if opts.hours = 0 ∨ opts.hours = 12 ∨ opts.hours = 24 ∨ opts.hours = 72 ∨ opts.hours = 168
        then opts.hours else 24
      let rangeLabel :=
        if isEn then
          if h = 12 then jstr "Last 12h" else if h = 24 then jstr "Last 24h"
          else if h = 72 then jstr "Past 3d" else if h = 168 then jstr "Past 7d" else jstr "All"
        else
          if h = 12 then jstr "最近12小时" else if h = 24 then jstr "最近24小时"
          else if h = 72 then jstr "过去三天" else if h = 168 then jstr "过去7天" else jstr "全部"
      let digestWord := if isEn then jstr "Digest" else jstr "简报"
      let title := scopeName ++ jstr " · " ++ rangeLabel ++ jstr " · " ++ digestWord ++
        jstr " " ++ env.timeStr
      let saved := saveDigest store env.nowIso
        { scope := opts.scope, scopeId := scopeId, scopeName := scopeName, title := title,
          content := digestContent, articleCount := preparedArticles.length,
          hours := opts.hours, targetLang := opts.targetLang }
      (Except.ok saved.1, saved.2)

/-! ### Claims C1 and C9 -/

theorem append_ne_nil_right (a b : JStr) (hb : b ≠ []) : a ++ b ≠ [] := by
  intro h
  exact hb (List.append_eq_nil.mp h).2

theorem placeholderDigest_spec (isEn unreadOnly : Bool) (hours : ℕ) (scope scopeName : JStr)
    (scopeId : Option Int) (nowIso : JStr) :
    (placeholderDigest isEn unreadOnly hours scope scopeName scopeId nowIso).articleCount = 0 ∧
    (placeholderDigest isEn unreadOnly hours scope scopeName scopeId nowIso).id = none ∧
    (placeholderDigest isEn unreadOnly hours scope scopeName scopeId nowIso).content ≠ [] ∧
    (jstr " - No Articles" <:+ (placeholderDigest isEn unreadOnly hours scope scopeName scopeId nowIso).title ∨
     jstr " - 无文章" <:+ (placeholderDigest isEn unreadOnly hours scope scopeName scopeId nowIso).title) := by
  refine ⟨rfl, rfl, ?_, ?_⟩
  · cases isEn with
    | true =>
      simp only [placeholderDigest]
      exact append_ne_nil_right _ _ (by decide)
    | false =>
      simp only [placeholderDigest]
      exact append_ne_nil_right _ _ (by decide)
  · cases isEn with
    | true =>
      left
      refine ⟨scopeName, ?_⟩
      simp only [placeholderDigest]
      rw [show jstr " - No Articles" = jstr " - " ++ jstr "No Articles" from by decide,
        ← List.append_assoc]
      simp
    | false =>
      right
      refine ⟨scopeName, ?_⟩
      simp only [placeholderDigest]
      rw [show jstr " - 无文章" = jstr " - " ++ jstr "无文章" from by decide,
        ← List.append_assoc]
      simp

/-- C1: when the article fetch yields zero articles, `generate` returns
success (never an error) with a placeholder digest whose `articleCount` is
0, whose title is marked with the "No Articles"/"无文章" suffix, and whose
content is a non-empty message — for every configuration and window. -/
theorem generate_zero_articles_success (env : GenEnv) (opts : GenOptions) (store : DigestStore)
    (h : env.articles = []) :
    ∃ d, (generate env opts store).1 = Except.ok d ∧ d.articleCount = 0 ∧ d.content ≠ [] ∧
      (jstr " - No Articles" <:+ d.title ∨ jstr " - 无文章" <:+ d.title) := by
  simp only [generate, h, List.length_nil, reduceIte]
  exact ⟨_, rfl, (placeholderDigest_spec _ _ _ _ _ _ _).1,
    (placeholderDigest_spec _ _ _ _ _ _ _).2.2.1,
    (placeholderDigest_spec _ _ _ _ _ _ _).2.2.2⟩

/-- C9: on the zero-article path `generate` performs no insert — the
digests table is returned unchanged — and the placeholder digest carries a
null identifier. -/
theorem generate_zero_articles_no_insert (env : GenEnv) (opts : GenOptions) (store : DigestStore)
    (h : env.articles = []) :
    (generate env opts store).2 = store ∧
    ∃ d, (generate env opts store).1 = Except.ok d ∧ d.id = none := by
  simp only [generate, h, List.length_nil, reduceIte]
  refine ⟨by trivial, ⟨_, rfl, rfl⟩⟩

/-- A concrete oracle environment with an empty article fetch. -/
def sampleGenEnv : GenEnv :=
  { aiContent := fun _ => Except.ok (jstr "DIGEST"),
    timeStr := jstr "10-11-12:00",
    nowIso := jstr "2026-10-11T12:00:00.000Z" }

/-- Witness for C1 at a concrete environment, options and store. -/
theorem generate_zero_articles_success_witness :
    ∃ d, (generate sampleGenEnv {} []).1 = Except.ok d ∧ d.articleCount = 0 ∧ d.content ≠ [] ∧
      (jstr " - No Articles" <:+ d.title ∨ jstr " - 无文章" <:+ d.title) :=
  generate_zero_articles_success sampleGenEnv {} [] rfl

/-- Witness for C9 at a concrete environment, options and store. -/
theorem generate_zero_articles_no_insert_witness :
    (generate sampleGenEnv {} []).2 = [] ∧
    ∃ d, (generate sampleGenEnv {} []).1 = Except.ok d ∧ d.id = none :=
  generate_zero_articles_no_insert sampleGenEnv {} [] rfl

/-! ### scheduler-service.js (part of the backend): task store and operations

The `scheduled_tasks` table is a list of rows; `activeJobs` is the
in-memory cron-trigger registry (a list of task ids).  `getNextRunTime`
and the `new CronJob` constructor wrap the same cron parser, modelled by
the oracle `cronParse : cron → timezone → Option nextRun` (`none` ⟺ the
constructor throws / `getNextRunTime` returns `null`). -/

/-- A `scheduled_tasks` row. -/
structure TaskRow where
  id : ℕ
  name : JStr
  scope : JStr
  scope_id : Option Int
  scope_name : JStr
  hours : ℕ
  target_lang : JStr
  unread_only : ℕ
  push_enabled : ℕ
  push_config : Option JStr
  cron_expression : JStr
  timezone : JStr
  is_active : ℕ
  last_run_at : Option JStr := none
  next_run_at : Option JStr := none
  last_error : Option JStr := none
deriving DecidableEq

/-- The `scheduled_tasks` table. -/
abbrev TaskStore := List TaskRow

/-- Scheduler-visible state: task rows, digest rows, live cron triggers. -/
structure SchedState where
  tasks : TaskStore := []
  digests : DigestStore := []
  activeJobs : List ℕ := []
deriving DecidableEq

/-- Oracles for the scheduler: cron parsing, config lookups, the digest
generation environment, and `CURRENT_TIMESTAMP`. -/
structure SchedEnv where
  cronParse : JStr → JStr → Option JStr := fun _ _ => none
  aiConfigured : Bool := true
  minifluxConfigured : Bool := true
  gen : GenEnv := {}
  now : JStr := []

/-- Result of `executeTask` / `runTaskNow`. -/
structure ExecResult where
  success : Bool
  error : Option JStr := none
  digest : Option DigestOut := none
  pushAttempted : Bool := false

/-- `SELECT * FROM scheduled_tasks WHERE id = ?`. -/
def getTask (tasks : TaskStore) (taskId : ℕ) : Option TaskRow :=
  tasks.find? (fun t => t.id == taskId)

/-- `UPDATE scheduled_tasks SET … WHERE id = ?`. -/
def dbUpdateTask (tasks : TaskStore) (taskId : ℕ) (f : TaskRow → TaskRow) : TaskStore :=
  tasks.map (fun t => if t.id = taskId then f t else t)

/-- `removeTask`: stop and drop the live trigger. -/
def removeTask (st : SchedState) (taskId : ℕ) : SchedState :=
  { st with activeJobs := st.activeJobs.filter (fun j => j != taskId) }

/-- `addTask` (lines 197-246).  Its parameter is destructured as
`{ id, name, cronExpression, timezone }`; every call site that passes a
raw database row (initialize, createTask, updateTask, enableTask)
supplies an object whose key is `cron_expression`, so the destructured
`cronExpression` is `undefined` there (`none` below) and the CronJob
constructor throws — the returned failure is ignored by those callers.
On success the trigger is registered and `next_run_at` refreshed. -/
def addTask (env : SchedEnv) (st : SchedState) (taskId : ℕ)
    (cronExpression : Option JStr) (timezone : JStr) : Bool × SchedState :=
  let st1 := if st.activeJobs.contains taskId then removeTask st taskId else st
  match cronExpression with
  | none => (false, st1)
  | some cron =>
    match env.cronParse cron timezone with
    | none => (false, st1)
    | some nextRun =>
      (true,
       { st1 with
          activeJobs := st1.activeJobs ++ [taskId],
          tasks := dbUpdateTask st1.tasks taskId (fun t => { t with next_run_at := some nextRun }) })

/-- `createTask` argument with its destructuring defaults. -/
structure CreateTaskData where
  name : JStr
  scope : JStr := jstr "all"
  scopeId : Option Int := none
  scopeName : Option JStr := none
  hours : ℕ := 24
  targetLang : JStr := jstr "Simplified Chinese"
  unreadOnly : Bool := true
  pushEnabled : Bool := false
  pushConfig : Option JStr := none
  cronExpression : JStr
  timezone : JStr := jstr "Asia/Shanghai"
  isActive : Bool := true

/-- Result of `createTask`. -/
structure CreateResult where
  success : Bool
  error : Option JStr := none
  taskId : Option ℕ := none
  nextRun : Option JStr := none

/-- `lastInsertRowid` for the task table. -/
def nextTaskId (tasks : TaskStore) : ℕ := (tasks.map (·.id)).foldr max 0 + 1

/-- `createTask` (lines 296-350): validates the cron expression up front
and rejects with no insert when it does not parse. -/
def createTask (env : SchedEnv) (st : SchedState) (d : CreateTaskData) :
    CreateResult × SchedState :=
  match env.cronParse d.cronExpression d.timezone with
  | none => ({ success := false, error := some (jstr "Invalid cron expression") }, st)
  | some nextRun =>
    let taskId := nextTaskId st.tasks
    let row : TaskRow := {
      id := taskId, name := d.name, scope := d.scope,
      scope_id := match d.scopeId with | some i => if i = 0 then none else some i | none => none,
      scope_name := d.scopeName.getD [],
      hours := d.hours, target_lang := d.targetLang,
      unread_only := if d.unreadOnly then 1 else 0,
      push_enabled := if d.pushEnabled then 1 else 0,
      push_config := d.pushConfig,
      cron_expression := d.cronExpression, timezone := d.timezone,
      is_active := if d.isActive then 1 else 0,
      next_run_at := some nextRun }
    let st1 := { st with tasks := st.tasks ++ [row] }
    let st2 := if d.isActive then (addTask env st1 taskId none row.timezone).2 else st1
    ({ success := true, taskId := some taskId, nextRun := some nextRun }, st2)

/-- `updateTask` argument: present fields are updated. -/
structure TaskUpdates where
  name : Option JStr := none
  scope : Option JStr := none
  scopeId : Option (Option Int) := none
  scopeName : Option JStr := none
  hours : Option ℕ := none
  targetLang : Option JStr := none
  unreadOnly : Option Bool := none
  pushEnabled : Option Bool := none
  pushConfig : Option (Option JStr) := none
  cronExpression : Option JStr := none
  timezone : Option JStr := none
  isActive : Option Bool := none

/-- Is any field present (`fields.length > 0`)? -/
def anyUpdate (u : TaskUpdates) : Bool :=
  u.name.isSome || u.scope.isSome || u.scopeId.isSome || u.scopeName.isSome ||
  u.hours.isSome || u.targetLang.isSome || u.unreadOnly.isSome || u.pushEnabled.isSome ||
  u.pushConfig.isSome || u.cronExpression.isSome || u.timezone.isSome || u.isActive.isSome

/-- The UPDATE row transformation of `updateTask`. -/
def applyTaskUpdates (u : TaskUpdates) (t : TaskRow) : TaskRow :=
  { t with
    name := u.name.getD t.name,
    scope := u.scope.getD t.scope,
    scope_id := u.scopeId.getD t.scope_id,
    scope_name := u.scopeName.getD t.scope_name,
    hours := u.hours.getD t.hours,
    target_lang := u.targetLang.getD t.target_lang,
    unread_only := match u.unreadOnly with | some b => if b then 1 else 0 | none => t.unread_only,
    push_enabled := match u.pushEnabled with | some b => if b then 1 else 0 | none => t.push_enabled,
    push_config := u.pushConfig.getD t.push_config,
    cron_expression := u.cronExpression.getD t.cron_expression,
    timezone := u.timezone.getD t.timezone,
    is_active := match u.isActive with | some b => if b then 1 else 0 | none => t.is_active }

/-- Result of `updateTask`. -/
structure UpdateResult where
  success : Bool
  error : Option JStr := none

/-- `updateTask` (lines 355-438): writes the given fields — including
`cron_expression`, with NO validation — then re-registers (or removes)
the live trigger, ignoring the outcome, and reports success. -/
def updateTask (env : SchedEnv) (st : SchedState) (taskId : ℕ) (u : TaskUpdates) :
    UpdateResult × SchedState :=
  if ¬ anyUpdate u then ({ success := false, error := some (jstr "No updates provided") }, st)
  else
    let st1 := { st with tasks := dbUpdateTask st.tasks taskId (applyTaskUpdates u) }
    match getTask st1.tasks taskId with
    | some task =>
      if task.is_active = 1 then
        ({ success := true }, (addTask env st1 taskId none task.timezone).2)
      else
        ({ success := true }, removeTask st1 taskId)
    | none => ({ success := true }, removeTask st1 taskId)

/-- `executeTask` (lines 81-169): stamps `last_run_at`, generates (and
optionally pushes — the push outcome never touches the task row), then on
success refreshes `next_run_at` and clears `last_error`; on any thrown
error it records `last_error` instead. -/
def executeTask (env : SchedEnv) (st : SchedState) (task : TaskRow) :
    ExecResult × SchedState :=
  let tasks1 := dbUpdateTask st.tasks task.id
    (fun t => { t with last_run_at := some env.now, last_error := none })
  let st1 := { st with tasks := tasks1 }
  if ¬ env.aiConfigured then
    let msg := jstr "AI not configured"
    ({ success := false, error := some msg },
     { st1 with
        tasks := dbUpdateTask tasks1 task.id (fun t => { t with last_error := some msg }) })
  else if ¬ env.minifluxConfigured then
    let msg := jstr "Miniflux not configured"
    ({ success := false, error := some msg },
     { st1 with
        tasks := dbUpdateTask tasks1 task.id (fun t => { t with last_error := some msg }) })
  else
    let opts : GenOptions := {
      scope := if task.scope = [] then jstr "all" else task.scope,
      feedId := if task.scope = jstr "feed" then task.scope_id else none,
      groupId := if task.scope = jstr "group" then task.scope_id else none,
      hours := if task.hours = 0 then 24 else task.hours,
      targetLang := if task.target_lang = [] then jstr "Simplified Chinese" else task.target_lang,
      customPrompt := none,
      unreadOnly := task.unread_only == 1,
      timezone := if task.timezone = [] then jstr "Asia/Shanghai" else task.timezone }
    match generate env.gen opts st1.digests with
    | (Except.error e, digests1) =>
      ({ success := false, error := some e },
       { st1 with
          digests := digests1,
          tasks := dbUpdateTask tasks1 task.id (fun t => { t with last_error := some e }) })
    | (Except.ok digest, digests1) =>
      let pushAttempted := task.push_enabled == 1 && task.push_config.isSome
      let nextRun := env.cronParse task.cron_expression task.timezone
      ({ success := true, digest := some digest, pushAttempted := pushAttempted },
       { st1 with
          digests := digests1,
          tasks := dbUpdateTask tasks1 task.id
            (fun t => { t with next_run_at := nextRun, last_error := none }) })

/-- `runTaskNow` (lines 484-492). -/
def runTaskNow (env : SchedEnv) (st : SchedState) (taskId : ℕ) : ExecResult × SchedState :=
  match getTask st.tasks taskId with
  | none => ({ success := false, error := some (jstr "Task not found") }, st)
  | some task => executeTask env st task

/-- A cron firing: the CronJob callback registered by `addTask` (lines
213-224) — re-read the row, execute if still active, else unregister. -/
def cronFire (env : SchedEnv) (st : SchedState) (taskId : ℕ) :
    Option ExecResult × SchedState :=
  match getTask st.tasks taskId with
  | some task =>
    if task.is_active = 1 then
      let r := executeTask env st task
      (some r.1, r.2)
    else (none, removeTask st taskId)
  | none => (none, removeTask st taskId)

/-! ### Claims C5 and C6 -/

/-- A cron oracle that accepts exactly `0 9 * * *`. -/
def sampleCronParse : JStr → JStr → Option JStr :=
  fun c _ => if c = jstr "0 9 * * *" then some (jstr "2026-10-12T09:00:00.000Z") else none

/-- A concrete scheduler environment. -/
def sampleSchedEnv : SchedEnv :=
  { cronParse := sampleCronParse, gen := sampleGenEnv, now := jstr "2026-10-11 12:00:00" }

/-- A concrete active task row with a valid cron expression. -/
def sampleTask : TaskRow :=
  { id := 1, name := jstr "daily", scope := jstr "all", scope_id := none,
    scope_name := jstr "All", hours := 24, target_lang := jstr "English",
    unread_only := 1, push_enabled := 0, push_config := none,
    cron_expression := jstr "0 9 * * *", timezone := jstr "Asia/Shanghai",
    is_active := 1, last_run_at := none,
    next_run_at := some (jstr "2026-10-11T09:00:00.000Z"), last_error := none }

/-- A concrete scheduler state holding `sampleTask` with its live trigger. -/
def sampleSchedState : SchedState :=
  { tasks := [sampleTask], digests := [], activeJobs := [1] }

/-- C5 fails on the code for the update path: `updateTask` persists a
cron expression that does not parse (the environment's parser rejects it),
reports success, and silently drops the live trigger, leaving the task row
in an unrunnable state; `createTask` does reject the same expression
synchronously with no insert. -/
theorem updateTask_persists_invalid_cron :
    (updateTask sampleSchedEnv sampleSchedState 1
        { cronExpression := some (jstr "not a cron") }).1.success = true ∧
    ((updateTask sampleSchedEnv sampleSchedState 1
        { cronExpression := some (jstr "not a cron") }).2.tasks.map (·.cron_expression))
      = [jstr "not a cron"] ∧
    sampleSchedEnv.cronParse (jstr "not a cron") (jstr "Asia/Shanghai") = none ∧
    (updateTask sampleSchedEnv sampleSchedState 1
        { cronExpression := some (jstr "not a cron") }).2.activeJobs = [] ∧
    (createTask sampleSchedEnv sampleSchedState
        { name := jstr "t2", cronExpression := jstr "not a cron" }).1.success = false ∧
    (createTask sampleSchedEnv sampleSchedState
        { name := jstr "t2", cronExpression := jstr "not a cron" }).2 = sampleSchedState := by
  refine ⟨by decide, by decide, by decide, by decide, by decide, by decide⟩

/-- C6 as stated is false: a successful manual run rewrites `next_run_at`
with a freshly computed next fire time (here `2026-10-12T09:00:00.000Z`,
while the stored value was `2026-10-11T09:00:00.000Z`). -/
theorem runTaskNow_changes_next_run_counterexample :
    (runTaskNow sampleSchedEnv sampleSchedState 1).1.success = true ∧
    ((runTaskNow sampleSchedEnv sampleSchedState 1).2.tasks.map (·.next_run_at))
      = [some (jstr "2026-10-12T09:00:00.000Z")] ∧
    sampleTask.next_run_at = some (jstr "2026-10-11T09:00:00.000Z") ∧
    ((runTaskNow sampleSchedEnv sampleSchedState 1).2.tasks.map (·.next_run_at))
      ≠ [sampleTask.next_run_at] := by
  refine ⟨by decide, by decide, by decide, by decide⟩

theorem getTask_dbUpdateTask (tasks : TaskStore) (taskId : ℕ) (f : TaskRow → TaskRow)
    (hf : ∀ t, (f t).id = t.id) :
    getTask (dbUpdateTask tasks taskId f) taskId = (getTask tasks taskId).map f := by
  induction tasks with
  | nil => rfl
  | cons t ts ih =>
    simp only [getTask, dbUpdateTask, List.map_cons] at *
    by_cases h : t.id = taskId
    · have h1 : ((f t).id == taskId) = true := by rw [hf t, h]; simp
      have h2 : (t.id == taskId) = true := by rw [h]; simp
      simp [List.find?, if_pos h, h1, h2]
    · have h1 : (t.id == taskId) = false := by simpa using h
      simp only [if_neg h, List.find?, h1]
      exact ih

theorem getTask_double_update (tasks : TaskStore) (key : ℕ) (f g : TaskRow → TaskRow)
    (hf : ∀ t, (f t).id = t.id) (hg : ∀ t, (g t).id = t.id) :
    getTask (dbUpdateTask (dbUpdateTask tasks key f) key g) key
      = (getTask tasks key).map (fun t => g (f t)) := by
  rw [getTask_dbUpdateTask _ _ g hg, getTask_dbUpdateTask _ _ f hf, Option.map_map]
  rfl

theorem executeTask_post (env : SchedEnv) (st : SchedState) (task : TaskRow) :
    (getTask (executeTask env st task).2.tasks task.id).map (·.last_run_at)
      = (getTask st.tasks task.id).map (fun _ => some env.now) ∧
    ((executeTask env st task).1.success = true →
      (getTask (executeTask env st task).2.tasks task.id).map (·.next_run_at)
        = (getTask st.tasks task.id).map
            (fun _ => env.cronParse task.cron_expression task.timezone)) := by
  by_cases hai : env.aiConfigured
  · by_cases hmini : env.minifluxConfigured
    · simp only [executeTask, hai, hmini, not_true_eq_false, if_false, Bool.false_eq_true,
        reduceIte]
      split
      next e digests1 heq =>
        constructor
        · rw [getTask_double_update, Option.map_map]
          · cases getTask st.tasks task.id <;> simp
          · exact fun t => rfl
          · exact fun t => rfl
        · intro hsucc
          simp at hsucc
      next digest digests1 heq =>
        constructor
        · rw [getTask_double_update, Option.map_map]
          · cases getTask st.tasks task.id <;> simp
          · exact fun t => rfl
          · exact fun t => rfl
        · intro _
          rw [getTask_double_update, Option.map_map]
          · cases getTask st.tasks task.id <;> simp
          · exact fun t => rfl
          · exact fun t => rfl
    · simp only [executeTask, hai, hmini, not_true_eq_false, not_false_eq_true, if_false,
        if_true, Bool.false_eq_true, reduceIte]
      constructor
      · rw [getTask_double_update, Option.map_map]
        · cases getTask st.tasks task.id <;> simp
        · exact fun t => rfl
        · exact fun t => rfl
      · intro hsucc
        simp at hsucc
  · simp only [executeTask, hai, not_false_eq_true, if_true, Bool.false_eq_true, reduceIte]
    constructor
    · rw [getTask_double_update, Option.map_map]
      · cases getTask st.tasks task.id <;> simp
      · exact fun t => rfl
      · exact fun t => rfl
    · intro hsucc
      simp at hsucc

/-- C6 (amended): for every existing task, `runTaskNow` executes the
identical generation-and-push path as a cron firing of the (active) task —
both are the same `executeTask` call — and it always stamps
`last_run_at`; but, contrary to the original claim, a successful manual
run DOES touch `next_run_at`: it overwrites it with the freshly computed
next fire time of the task's cron expression. -/
theorem runTaskNow_identical_path (env : SchedEnv) (st : SchedState) (taskId : ℕ)
    (task : TaskRow) (hfind : getTask st.tasks taskId = some task)
    (hact : task.is_active = 1) :
    runTaskNow env st taskId = executeTask env st task ∧
    cronFire env st taskId
      = (some (runTaskNow env st taskId).1, (runTaskNow env st taskId).2) ∧
    (getTask (runTaskNow env st taskId).2.tasks taskId).map (·.last_run_at)
      = some (some env.now) ∧
    ((runTaskNow env st taskId).1.success = true →
      (getTask (runTaskNow env st taskId).2.tasks taskId).map (·.next_run_at)
        = some (env.cronParse task.cron_expression task.timezone)) := by
  have htid : task.id = taskId := by
    have h := List.find?_some hfind
    simpa using h
  have h1 : runTaskNow env st taskId = executeTask env st task := by
    simp [runTaskNow, hfind]
  obtain ⟨hpost1, hpost2⟩ := executeTask_post env st task
  rw [htid] at hpost1 hpost2
  rw [hfind] at hpost1 hpost2
  refine ⟨h1, ?_, ?_, ?_⟩
  · simp [cronFire, hfind, hact, h1]
  · rw [h1]
    simpa using hpost1
  · rw [h1]
    intro hs
    simpa using hpost2 hs

/-- Witness for the amended C6 at the concrete sample task. -/
theorem runTaskNow_identical_path_witness :
    runTaskNow sampleSchedEnv sampleSchedState 1
      = executeTask sampleSchedEnv sampleSchedState sampleTask ∧
    cronFire sampleSchedEnv sampleSchedState 1
      = (some (runTaskNow sampleSchedEnv sampleSchedState 1).1,
         (runTaskNow sampleSchedEnv sampleSchedState 1).2) ∧
    (getTask (runTaskNow sampleSchedEnv sampleSchedState 1).2.tasks 1).map (·.last_run_at)
      = some (some sampleSchedEnv.now) ∧
    ((runTaskNow sampleSchedEnv sampleSchedState 1).1.success = true →
      (getTask (runTaskNow sampleSchedEnv sampleSchedState 1).2.tasks 1).map (·.next_run_at)
        = some (sampleSchedEnv.cronParse sampleTask.cron_expression sampleTask.timezone)) :=
  runTaskNow_identical_path sampleSchedEnv sampleSchedState 1 sampleTask (by decide) (by decide)
